import Mathlib

/-!
# A shallow embedding of `cbcheck` (src/main.go)

`cbcheck` is a one-shot poller: it loads a config, opens a SQLite database
through GORM, auto-migrates the `SendList` table, fetches a JSON list of
crowdfunding funds, and, for every fund whose identifier is not yet recorded,
posts a Slack webhook message and records the identifier.

The embedding below mirrors `src/main.go`:

* `Fund` is the decoded JSON record (struct `Fund`, lines 30-45).
* `SendList` is a row of the dedup table (struct `SendList`, lines 57-61).
  `gorm.Model` contributes an auto-increment id, timestamps and a soft-delete
  column `DeletedAt`; only the soft-delete status is observable by the
  program's queries, so a row is modelled as its `FundID` together with a
  Boolean `deleted` (`DeletedAt` non-NULL).  The program itself never deletes.
* `Fund.Currency` is the method at lines 81-92.
* `buildMessage` is the `slack.WebhookMessage` literal at lines 143-190.
* `firstFundID` models `db.Where("fund_id = ?", id).First(&sendList)`
  (line 137): GORM's `First` on a soft-delete model selects the first row
  with the given `fund_id` *and* `deleted_at IS NULL`; when no row matches,
  the destination keeps its zero value (`FundID == ""`), and the error is
  ignored by the program.
* `notifyStep` is one iteration of the loop at lines 134-201.  External
  nondeterminism is made explicit: each fund comes paired with the outcome
  of its webhook post (`slack.PostWebhook`, line 143) and the outcome of the
  insert's I/O (`db.Create`, line 197).  The insert itself additionally
  fails on the `UNIQUE` constraint of `fund_id`, which SQLite checks against
  every row, soft-deleted ones included.
* `LoopState` instruments the run with the observable events: the webhook
  posts attempted (with the message actually built), the insert attempts,
  and the error log lines (`log.Printf`, lines 192 and 199; the formatted
  error text is elided, only the fixed prefix is kept).
* `mainRun` is the startup sequence of `main` (lines 94-132): config load,
  database open, auto-migrate, request construction, HTTP round trip, JSON
  decode, then the loop.  Each fallible external step is an explicit Boolean
  in `MainEnv`.  Two facts of the source are deliberately reflected:
  `db.AutoMigrate(&SendList{})` (line 111) discards its error, so
  `migrateOk` is never read; and `resp.StatusCode` is never examined, so
  `status` is never read.
-/

/-- Base URL constant (src/main.go line 20). -/
def CrowdBankURL : String := "https://crowdbank.jp"

/-- Search URL constant (src/main.go line 21). -/
def CrowdBankSearchURL : String :=
  CrowdBankURL ++ "/api/v1/funds/search?keyword=&region=&project=&status=21"

/-- One fund record decoded from the search response (src/main.go lines 30-45). -/
structure Fund where
  id : String
  name : String
  subTitle : String
  limitAmount : Int
  rate : String
  description : String
  url : String
  regionName : String
  projectName : String
  openTime : String
  closeTime : String
  limitTime : String
  raiseMethod : String
  currencyID : String
deriving DecidableEq, Repr

/-- `func (f *Fund) Currency() string` (src/main.go lines 81-92). -/
def Fund.Currency (f : Fund) : String :=
  match f.currencyID with
  | "1" => "日本円"
  | "2" => "USドル"
  | "3" => "AUドル"
  | _ => "不明"

/-- A row of the dedup table (src/main.go lines 57-61).  `fundID` carries the
`gorm:"unique"` column; `deleted` abstracts `gorm.Model`'s `DeletedAt`
soft-delete column (`true` when `deleted_at` is non-NULL). -/
structure SendList where
  fundID : String
  deleted : Bool
deriving DecidableEq, Repr

/-- The zero value of `SendList` (`var sendList SendList`, src/main.go
line 136): empty `FundID`, not soft-deleted. -/
def zeroSendList : SendList := { fundID := "", deleted := false }

/-- `db.Where("fund_id = ?", id).First(&sendList)` (src/main.go line 137).
GORM's `First` on a soft-delete model returns the first row (primary-key
order, which is insertion order) whose `fund_id` matches and whose
`deleted_at` is NULL; when nothing matches, the destination keeps its zero
value and the `ErrRecordNotFound` error is ignored by the program. -/
def firstFundID (db : List SendList) (fid : String) : SendList :=
  match db.find? (fun r => r.fundID == fid && !r.deleted) with
  | some r => r
  | none => zeroSendList

/-- One field of a Slack attachment (`slack.AttachmentField`). -/
structure AttachmentField where
  title : String
  value : String
  short : Bool
deriving DecidableEq, Repr

/-- A Slack attachment (the parts `main` populates: `slack.Attachment`). -/
structure Attachment where
  title : String
  titleLink : String
  text : String
  fields : List AttachmentField
  markdownIn : List String
deriving DecidableEq, Repr

/-- A Slack webhook message (the parts `main` populates:
`slack.WebhookMessage`). -/
structure WebhookMessage where
  text : String
  attachments : List Attachment
deriving DecidableEq, Repr

/-- The `slack.WebhookMessage` literal built for a fund
(src/main.go lines 143-190). -/
def buildMessage (f : Fund) : WebhookMessage :=
  { text := f.name
    attachments :=
      [{ title := f.subTitle
         titleLink := CrowdBankURL ++ f.url
         text := f.description
         fields :=
           [{ title := "地域", value := f.regionName, short := true },
            { title := "プロジェクト", value := f.projectName, short := true },
            { title := "募集開始日", value := f.openTime, short := true },
            { title := "募集終了日", value := f.closeTime, short := true },
            { title := "利率", value := f.rate ++ "%", short := true },
            { title := "募集方法", value := f.raiseMethod, short := true },
            { title := "通貨", value := f.Currency, short := true }]
         markdownIn := ["text"] }] }

/-- An attempted webhook post: the fund it was for, the message that was sent
(always `buildMessage fund`), and whether `slack.PostWebhook` succeeded. -/
structure PostEvent where
  fund : Fund
  msg : WebhookMessage
  ok : Bool
deriving DecidableEq, Repr

/-- A fund of the fetched list together with the outcomes of its two external
calls: whether the webhook post succeeds, and whether the insert's I/O
succeeds (the `UNIQUE` constraint is modelled separately in `notifyStep`). -/
abbrev Item : Type := Fund × Bool × Bool

/-- The observable state threaded through the notify loop: the database rows
(in insertion order), plus instrumentation recording every webhook post
attempt, every insert attempt (fund id and success), and every error log
line. -/
structure LoopState where
  db : List SendList
  posts : List PostEvent
  inserts : List (String × Bool)
  logs : List String
deriving DecidableEq, Repr

/-- One iteration of the loop at src/main.go lines 134-201:
look up the fund id; skip when the found row's `FundID` is non-empty
(line 138); otherwise post the webhook; on post failure log and continue
(lines 191-194); on post success attempt the insert, which succeeds when its
I/O succeeds and no row (soft-deleted or not) already holds the id
(`UNIQUE` on `fund_id`); on insert failure log and continue
(lines 197-200). -/
def notifyStep (s : LoopState) : Item → LoopState
  | (fund, postOk, ioOk) =>
    if (firstFundID s.db fund.id).fundID ≠ "" then
      s
    else if postOk = false then
      { db := s.db
        posts := s.posts ++ [{ fund := fund, msg := buildMessage fund, ok := false }]
        inserts := s.inserts
        logs := s.logs ++ ["Failed to post webhook"] }
    else if ioOk && s.db.all (fun r => r.fundID != fund.id) then
      { db := s.db ++ [{ fundID := fund.id, deleted := false }]
        posts := s.posts ++ [{ fund := fund, msg := buildMessage fund, ok := true }]
        inserts := s.inserts ++ [(fund.id, true)]
        logs := s.logs }
    else
      { db := s.db
        posts := s.posts ++ [{ fund := fund, msg := buildMessage fund, ok := true }]
        inserts := s.inserts ++ [(fund.id, false)]
        logs := s.logs ++ ["Failed to save to database"] }

/-- The whole notify loop (`for _, fund := range response.Data.List`,
src/main.go line 134). -/
def notifyLoop (s : LoopState) (items : List Item) : LoopState :=
  items.foldl notifyStep s

/-- The loop state at process start: the rows read back from the database
file, and no events yet. -/
def initState (db : List SendList) : LoopState :=
  { db := db, posts := [], inserts := [], logs := [] }

/-- A sequence of runs of the program against the same database file: each
run starts with the rows left by the previous one and processes one fetched
batch; the result is the final rows and the concatenation of every run's
webhook post events. -/
def multiRun : List SendList → List (List Item) → List SendList × List PostEvent
  | db, [] => (db, [])
  | db, batch :: rest =>
    let s := notifyLoop (initState db) batch
    let r := multiRun s.db rest
    (r.1, s.posts ++ r.2)

/-- The number of successful webhook posts recorded for a fund identifier. -/
def countOk (s : LoopState) (fid : String) : Nat :=
  (s.posts.filter (fun e => e.ok && e.fund.id == fid)).length

/-- The number of webhook posts (successful or not) recorded for a fund
identifier. -/
def countPosts (s : LoopState) (fid : String) : Nat :=
  (s.posts.filter (fun e => e.fund.id == fid)).length

/-- The identifiers of the successful posts, in order. -/
def okPostIDs (s : LoopState) : List String :=
  (s.posts.filter (fun e => e.ok)).map (fun e => e.fund.id)

/-- The number of items of a batch whose fund identifier has no row at all in
the given database — the spec's count of "new (not in persistence)" funds. -/
def newCount (db : List SendList) (items : List Item) : Nat :=
  (items.filter (fun i => !(db.any (fun r => r.fundID == i.1.id)))).length

/-- The external outcomes of the startup sequence of `main`
(src/main.go lines 94-132).  `migrateOk` is the outcome of
`db.AutoMigrate(&SendList{})` (line 111): the source discards this error, so
the field is never read.  `status` is the HTTP status code of the fetch
response: the source never examines `resp.StatusCode`, so the field is never
read.  `decoded` is `none` when `json.NewDecoder(resp.Body).Decode` fails,
and otherwise carries the fund list, each fund paired with the outcomes of
its webhook post and insert I/O. -/
structure MainEnv where
  loadOk : Bool
  openOk : Bool
  migrateOk : Bool
  newRequestOk : Bool
  doOk : Bool
  status : Nat
  decoded : Option (List Item)
  initDB : List SendList

/-- The outcome of a run of `main`: aborted by `log.Fatalf` with the given
message prefix (nothing after the abort executes), or ran the notify loop to
completion with the given final state. -/
inductive MainResult where
  | fatal (msg : String)
  | done (s : LoopState)
deriving DecidableEq, Repr

/-- The webhook post events of a run: none when the process aborted before
the loop. -/
def MainResult.postEvents : MainResult → List PostEvent
  | .fatal _ => []
  | .done s => s.posts

/-- The startup sequence of `main` (src/main.go lines 94-132): config load
(fatal on error, line 101), database open (fatal on error, line 107),
auto-migrate (error discarded, line 111), request construction (fatal on
error, line 116), HTTP round trip (fatal on error, line 124), JSON decode
(fatal on error, line 131), then the notify loop over the decoded list. -/
def mainRun (env : MainEnv) : MainResult :=
  if env.loadOk = false then .fatal "Failed to load config"
  else if env.openOk = false then .fatal "Failed to open database"
  else if env.newRequestOk = false then .fatal "Failed to create request"
  else if env.doOk = false then .fatal "Failed to request"
  else
    match env.decoded with
    | none => .fatal "Failed to decode json"
    | some items => .done (notifyLoop (initState env.initDB) items)

/-! ### Concrete inputs used by witnesses and counterexamples -/

/-- A sample fund with a non-empty identifier. -/
def fundA : Fund :=
  { id := "F1", name := "Fund A", subTitle := "Sub A", limitAmount := 100
    rate := "1.5", description := "desc", url := "/funds/1"
    regionName := "Tokyo", projectName := "Proj", openTime := "2026-01-01"
    closeTime := "2026-02-01", limitTime := "2026-03-01"
    raiseMethod := "web", currencyID := "1" }

/-- A second sample fund with a distinct non-empty identifier. -/
def fundB : Fund := { fundA with id := "F2", currencyID := "9" }

/-- A fund whose identifier is the empty string, as the JSON decoder yields
when the `id` key is absent or empty. -/
def fundEmpty : Fund := { fundA with id := "" }

/-- A startup environment where every external step succeeds and the fetch
decodes to an empty list. -/
def envAllOk : MainEnv :=
  { loadOk := true, openOk := true, migrateOk := true, newRequestOk := true
    doOk := true, status := 200, decoded := some [], initDB := [] }

/-- `envAllOk` with a failing database open. -/
def envOpenFail : MainEnv := { envAllOk with openOk := false }

/-- `envAllOk` with a failing auto-migrate (whose error line 111 discards). -/
def envMigrateFail : MainEnv := { envAllOk with migrateOk := false }

/-- `envAllOk` with a failing JSON decode. -/
def envDecodeFail : MainEnv := { envAllOk with decoded := none, doOk := true }

/-- `envAllOk` with a non-2xx HTTP status (which line 122's result never
exposes to the rest of `main`: `resp.StatusCode` is not read). -/
def envStatus500 : MainEnv := { envAllOk with status := 500 }

/-! ### Helper lemmas about the skip check and the loop step -/

/-- The loop's skip condition (`sendList.FundID != ""`, src/main.go line 138)
holds exactly when the identifier is non-empty and a row with that identifier
that is not soft-deleted exists. -/
theorem firstFundID_ne_iff (db : List SendList) (fid : String) :
    (firstFundID db fid).fundID ≠ "" ↔
      fid ≠ "" ∧ ∃ r ∈ db, r.fundID = fid ∧ r.deleted = false := by
  constructor
  · intro hne
    cases h : db.find? (fun r => r.fundID == fid && !r.deleted) with
    | none =>
      exfalso
      apply hne
      simp [firstFundID, h, zeroSendList]
    | some r =>
      have hp := List.find?_some h
      have hm := List.mem_of_find?_eq_some h
      simp only [Bool.and_eq_true, beq_iff_eq, Bool.not_eq_true'] at hp
      have hfe : (firstFundID db fid).fundID = r.fundID := by
        simp [firstFundID, h]
      rw [hfe, hp.1] at hne
      exact ⟨hne, r, hm, hp.1, hp.2⟩
  · rintro ⟨hfid, r, hm, hrf, hrd⟩
    cases h : db.find? (fun r => r.fundID == fid && !r.deleted) with
    | none =>
      exfalso
      have hnr := List.find?_eq_none.mp h r hm
      simp [hrf, hrd] at hnr
    | some q =>
      have hp := List.find?_some h
      simp only [Bool.and_eq_true, beq_iff_eq, Bool.not_eq_true'] at hp
      have hfe : (firstFundID db fid).fundID = q.fundID := by
        simp [firstFundID, h]
      rw [hfe, hp.1]
      exact hfid

/-- A fund the skip check accepts leaves the state untouched (the `continue`
at src/main.go line 139). -/
theorem notifyStep_skip (s : LoopState) (fund : Fund) (po w : Bool)
    (h : (firstFundID s.db fund.id).fundID ≠ "") :
    notifyStep s (fund, po, w) = s := by
  simp [notifyStep, h]

/-- One step either leaves the rows unchanged or appends the single fresh,
non-soft-deleted row for the processed fund's identifier. -/
theorem notifyStep_db_sub (s : LoopState) (it : Item) :
    (notifyStep s it).db = s.db ∨
      (notifyStep s it).db = s.db ++ [{ fundID := it.1.id, deleted := false }] := by
  obtain ⟨fund, po, w⟩ := it
  simp only [notifyStep]
  split_ifs <;> simp

/-- One step either records no webhook post or appends the single post event
of the processed fund with its outcome. -/
theorem notifyStep_posts_sub (s : LoopState) (it : Item) :
    (notifyStep s it).posts = s.posts ∨
      (notifyStep s it).posts =
        s.posts ++ [{ fund := it.1, msg := buildMessage it.1, ok := it.2.1 }] := by
  obtain ⟨fund, po, w⟩ := it
  simp only [notifyStep]
  split_ifs with h1 h2 h3 <;> simp_all

/-- A step never soft-deletes: rows all stay non-soft-deleted. -/
theorem notifyStep_nondel (s : LoopState) (it : Item)
    (h : ∀ r ∈ s.db, r.deleted = false) :
    ∀ r ∈ (notifyStep s it).db, r.deleted = false := by
  rcases notifyStep_db_sub s it with hdb | hdb <;> rw [hdb]
  · exact h
  · intro r hr
    rcases List.mem_append.mp hr with hr | hr
    · exact h r hr
    · simp only [List.mem_singleton] at hr
      rw [hr]

/-- Rows are never removed by a step: any row present before is present
after. -/
theorem notifyStep_pres (s : LoopState) (it : Item) (p : SendList → Prop)
    (h : ∃ r ∈ s.db, p r) : ∃ r ∈ (notifyStep s it).db, p r := by
  rcases notifyStep_db_sub s it with hdb | hdb <;> rw [hdb]
  · exact h
  · obtain ⟨r, hr, hp⟩ := h
    exact ⟨r, List.mem_append.mpr (Or.inl hr), hp⟩

/-- A step only reads the rows and appends to the event lists: running it
from a state with the same rows and empty event lists yields the same rows
and exactly the appended events. -/
theorem notifyStep_frame (s : LoopState) (it : Item) :
    notifyStep s it =
      { db := (notifyStep (initState s.db) it).db
        posts := s.posts ++ (notifyStep (initState s.db) it).posts
        inserts := s.inserts ++ (notifyStep (initState s.db) it).inserts
        logs := s.logs ++ (notifyStep (initState s.db) it).logs } := by
  obtain ⟨fund, po, w⟩ := it
  simp only [notifyStep, initState]
  split_ifs <;> simp

/-- The loop only reads the rows and appends to the event lists. -/
theorem notifyLoop_frame (items : List Item) : ∀ s : LoopState,
    notifyLoop s items =
      { db := (notifyLoop (initState s.db) items).db
        posts := s.posts ++ (notifyLoop (initState s.db) items).posts
        inserts := s.inserts ++ (notifyLoop (initState s.db) items).inserts
        logs := s.logs ++ (notifyLoop (initState s.db) items).logs } := by
  induction items with
  | nil =>
    intro s
    simp [notifyLoop, initState]
  | cons i t ih =>
    intro s
    have h1 : notifyLoop s (i :: t) = notifyLoop (notifyStep s i) t := rfl
    have h2 : notifyLoop (initState s.db) (i :: t) =
        notifyLoop (notifyStep (initState s.db) i) t := rfl
    rw [h1, h2, ih (notifyStep s i), ih (notifyStep (initState s.db) i),
      notifyStep_frame s i]
    simp

/-- A sequence of runs against the same database file is the single notify
loop over the concatenation of the batches: the final rows agree, and the
concatenation of the runs' post events is the flattened loop's post events. -/
theorem multiRun_eq_join (db : List SendList) (batches : List (List Item)) :
    multiRun db batches =
      ((notifyLoop (initState db) batches.flatten).db,
       (notifyLoop (initState db) batches.flatten).posts) := by
  induction batches generalizing db with
  | nil => simp [multiRun, notifyLoop, initState]
  | cons b bs ih =>
    have hflat : (b :: bs).flatten = b ++ bs.flatten := by simp
    rw [multiRun, ih, hflat]
    have happ : notifyLoop (initState db) (b ++ bs.flatten) =
        notifyLoop (notifyLoop (initState db) b) bs.flatten := by
      simp [notifyLoop, List.foldl_append]
    rw [happ, notifyLoop_frame bs.flatten (notifyLoop (initState db) b)]

/-- A fund with a non-empty identifier that has a non-soft-deleted row is
skipped. -/
theorem notifyStep_skip_of_present (s : LoopState) (fund : Fund) (po w : Bool)
    (hfid : fund.id ≠ "")
    (hpres : ∃ r ∈ s.db, r.fundID = fund.id ∧ r.deleted = false) :
    notifyStep s (fund, po, w) = s :=
  notifyStep_skip s fund po w ((firstFundID_ne_iff s.db fund.id).mpr ⟨hfid, hpres⟩)

/-- Shape of the step when the fund is not skipped and the post fails
(src/main.go lines 191-194). -/
theorem notifyStep_postfail (s : LoopState) (fund : Fund) (w : Bool)
    (hg : ¬ (firstFundID s.db fund.id).fundID ≠ "") :
    notifyStep s (fund, false, w) =
      { db := s.db
        posts := s.posts ++ [{ fund := fund, msg := buildMessage fund, ok := false }]
        inserts := s.inserts
        logs := s.logs ++ ["Failed to post webhook"] } := by
  simp [notifyStep, hg]

/-- Shape of the step when the fund is not skipped, the post succeeds, and
the insert succeeds (src/main.go line 197). -/
theorem notifyStep_insertok (s : LoopState) (fund : Fund)
    (hg : ¬ (firstFundID s.db fund.id).fundID ≠ "")
    (hall : s.db.all (fun r => r.fundID != fund.id) = true) :
    notifyStep s (fund, true, true) =
      { db := s.db ++ [{ fundID := fund.id, deleted := false }]
        posts := s.posts ++ [{ fund := fund, msg := buildMessage fund, ok := true }]
        inserts := s.inserts ++ [(fund.id, true)]
        logs := s.logs } := by
  simp [notifyStep, hg, hall]

/-- Shape of the step when the fund is not skipped, the post succeeds, and
the insert fails (src/main.go lines 198-200). -/
theorem notifyStep_insertfail (s : LoopState) (fund : Fund) (w : Bool)
    (hg : ¬ (firstFundID s.db fund.id).fundID ≠ "")
    (hfail : (w && s.db.all (fun r => r.fundID != fund.id)) = false) :
    notifyStep s (fund, true, w) =
      { db := s.db
        posts := s.posts ++ [{ fund := fund, msg := buildMessage fund, ok := true }]
        inserts := s.inserts ++ [(fund.id, false)]
        logs := s.logs ++ ["Failed to save to database"] } := by
  simp [notifyStep, hg, hfail]

/-- Processing a fund with a different identifier does not change the number
of posts recorded for a given identifier. -/
theorem countPosts_step_ne (s : LoopState) (it : Item) (fid : String)
    (h : ¬ it.1.id = fid) :
    countPosts (notifyStep s it) fid = countPosts s fid := by
  rcases notifyStep_posts_sub s it with hp | hp <;>
    simp [countPosts, hp, List.filter_append, h]

/-- Processing a fund with a different identifier does not change the number
of successful posts recorded for a given identifier. -/
theorem countOk_step_ne (s : LoopState) (it : Item) (fid : String)
    (h : ¬ it.1.id = fid) :
    countOk (notifyStep s it) fid = countOk s fid := by
  rcases notifyStep_posts_sub s it with hp | hp <;>
    simp [countOk, hp, List.filter_append, h]

/-- One-step preservation of the at-most-once invariant for a non-empty
identifier, when the insert's I/O succeeds: the number of successful posts
stays at most one, and a successful post leaves a row behind. -/
theorem c1_step (s : LoopState) (fund : Fund) (po : Bool) (fid : String)
    (hfid : fid ≠ "")
    (hnd : ∀ r ∈ s.db, r.deleted = false)
    (h1 : countOk s fid ≤ 1)
    (h2 : 1 ≤ countOk s fid → ∃ r ∈ s.db, r.fundID = fid) :
    countOk (notifyStep s (fund, po, true)) fid ≤ 1 ∧
    (1 ≤ countOk (notifyStep s (fund, po, true)) fid →
      ∃ r ∈ (notifyStep s (fund, po, true)).db, r.fundID = fid) := by
  by_cases hg : (firstFundID s.db fund.id).fundID ≠ ""
  · rw [notifyStep_skip s fund po true hg]
    exact ⟨h1, h2⟩
  · by_cases hid : fund.id = fid
    · have h0 : countOk s fid = 0 := by
        by_contra hne0
        obtain ⟨r, hr, hrf⟩ := h2 (Nat.one_le_iff_ne_zero.mpr hne0)
        apply hg
        apply (firstFundID_ne_iff s.db fund.id).mpr
        exact ⟨by rw [hid]; exact hfid, r, hr, by rw [hid]; exact hrf, hnd r hr⟩
      rcases Bool.eq_false_or_eq_true po with hpo | hpo
      · subst hpo
        have hall : s.db.all (fun r => r.fundID != fund.id) = true := by
          rw [List.all_eq_true]
          intro r hr
          rw [bne_iff_ne]
          intro hcon
          apply hg
          apply (firstFundID_ne_iff s.db fund.id).mpr
          exact ⟨by rw [hid]; exact hfid, r, hr, hcon, hnd r hr⟩
        rw [notifyStep_insertok s fund hg hall]
        have hcnt : countOk
            { db := s.db ++ [{ fundID := fund.id, deleted := false }]
              posts := s.posts ++ [{ fund := fund, msg := buildMessage fund, ok := true }]
              inserts := s.inserts ++ [(fund.id, true)]
              logs := s.logs } fid = countOk s fid + 1 := by
          simp [countOk, List.filter_append, hid]
        rw [hcnt, h0]
        refine ⟨le_refl 1, fun _ => ?_⟩
        refine ⟨{ fundID := fund.id, deleted := false }, ?_, hid⟩
        simp
      · subst hpo
        rw [notifyStep_postfail s fund true hg]
        have hcnt : countOk
            { db := s.db
              posts := s.posts ++ [{ fund := fund, msg := buildMessage fund, ok := false }]
              inserts := s.inserts
              logs := s.logs ++ ["Failed to post webhook"] } fid = countOk s fid := by
          simp [countOk, List.filter_append]
        rw [hcnt, h0]
        exact ⟨Nat.zero_le 1, fun hge => absurd hge (by omega)⟩
    · have hcnt := countOk_step_ne s (fund, po, true) fid hid
      rw [hcnt]
      exact ⟨h1, fun hge => notifyStep_pres s (fund, po, true) (fun r => r.fundID = fid) (h2 hge)⟩

/-- Loop-level preservation of the at-most-once invariant for a non-empty
identifier when every insert's I/O succeeds. -/
theorem c1_loop (items : List Item) : ∀ s : LoopState, ∀ fid : String, fid ≠ "" →
    (∀ i ∈ items, i.2.2 = true) →
    (∀ r ∈ s.db, r.deleted = false) →
    countOk s fid ≤ 1 →
    (1 ≤ countOk s fid → ∃ r ∈ s.db, r.fundID = fid) →
    countOk (notifyLoop s items) fid ≤ 1 ∧
    (1 ≤ countOk (notifyLoop s items) fid →
      ∃ r ∈ (notifyLoop s items).db, r.fundID = fid) := by
  induction items with
  | nil =>
    intro s fid _ _ _ h1 h2
    exact ⟨h1, h2⟩
  | cons i t ih =>
    intro s fid hfid hw hnd h1 h2
    obtain ⟨fund, po, w⟩ := i
    have hw1 : w = true := hw (fund, po, w) (List.mem_cons_self _ _)
    subst hw1
    have hstep := c1_step s fund po fid hfid hnd h1 h2
    have hnd' := notifyStep_nondel s (fund, po, true) hnd
    exact ih (notifyStep s (fund, po, true)) fid hfid
      (fun j hj => hw j (List.mem_cons_of_mem _ hj)) hnd' hstep.1 hstep.2

/-- Funds whose identifier has a non-soft-deleted row are never posted for:
the loop adds no post events for such an identifier. -/
theorem countPosts_loop_of_present (items : List Item) : ∀ s : LoopState,
    ∀ fid : String, fid ≠ "" →
    (∃ r ∈ s.db, r.fundID = fid ∧ r.deleted = false) →
    countPosts (notifyLoop s items) fid = countPosts s fid := by
  induction items with
  | nil =>
    intro s fid _ _
    rfl
  | cons i t ih =>
    intro s fid hfid hpres
    obtain ⟨fund, po, w⟩ := i
    have hcons : notifyLoop s ((fund, po, w) :: t) =
        notifyLoop (notifyStep s (fund, po, w)) t := rfl
    by_cases hid : fund.id = fid
    · rw [hcons, notifyStep_skip_of_present s fund po w (by rw [hid]; exact hfid)
        (by rw [hid]; exact hpres)]
      exact ih s fid hfid hpres
    · have hpres' := notifyStep_pres s (fund, po, w)
        (fun r => r.fundID = fid ∧ r.deleted = false) hpres
      rw [hcons, ih (notifyStep s (fund, po, w)) fid hfid hpres',
        countPosts_step_ne s (fund, po, w) fid hid]

/-- **C1** (amended).  For every *non-empty* fund identifier, across the
lifetime of the database file (any sequence of runs of the notify loop over
any fetched lists, starting from an empty database), *provided the insert
I/O succeeds for every item*, at most one successful outbound webhook post
is produced for that identifier.  As stated the claim is false: a fund whose
identifier is the empty string defeats the existence check
(`sendList.FundID != ""`, src/main.go line 138) and is re-notified on every
run, and a failed insert after a successful post likewise permits a second
post on a later run. -/
theorem claim_C1 (batches : List (List Item))
    (hw : ∀ b ∈ batches, ∀ i ∈ b, i.2.2 = true)
    (fid : String) (hfid : fid ≠ "") :
    ((multiRun [] batches).2.filter (fun e => e.ok && e.fund.id == fid)).length ≤ 1 := by
  rw [multiRun_eq_join]
  have hw' : ∀ i ∈ batches.flatten, i.2.2 = true := by
    intro i hi
    obtain ⟨b, hb, hib⟩ := List.mem_flatten.mp hi
    exact hw b hb i hib
  exact (c1_loop batches.flatten (initState []) fid hfid hw'
    (by intro r hr; simp [initState] at hr)
    (by simp [countOk, initState])
    (by intro h; simp [countOk, initState] at h)).1

/-- Witness for C1: two runs each fetching the same fund yield at most one
successful post for its identifier. -/
theorem claim_C1_witness :
    ((multiRun [] [[(fundA, true, true)], [(fundA, true, true)]]).2.filter
      (fun e => e.ok && e.fund.id == "F1")).length ≤ 1 :=
  claim_C1 [[(fundA, true, true)], [(fundA, true, true)]] (by decide) "F1" (by decide)

/-- Counterexample to C1 as stated: for the empty fund identifier, two items
with every external call succeeding produce two successful outbound posts —
the existence check never recognises the recorded empty identifier. -/
theorem claim_C1_cex :
    ((multiRun [] [[(fundEmpty, true, true), (fundEmpty, true, true)]]).2.filter
      (fun e => e.ok && e.fund.id == "")).length = 2 := by
  decide

/-- **C2** (amended).  For every fund whose identifier is *non-empty* and has
a *non-soft-deleted* row in persistence, the loop performs no webhook post,
no insert, and no log output for that fund — the step leaves the state
unchanged — and re-running the loop against the same persistence adds no
post event for that identifier.  As stated the claim is false for a fund
whose identifier is the empty string: its row is found, but the
`sendList.FundID != ""` check (src/main.go line 138) misreads it as absent
and the fund is posted again. -/
theorem claim_C2 (s : LoopState) (fid : String) (hfid : fid ≠ "")
    (hpres : ∃ r ∈ s.db, r.fundID = fid ∧ r.deleted = false) :
    (∀ fund po w, fund.id = fid → notifyStep s (fund, po, w) = s) ∧
    (∀ items, countPosts (notifyLoop s items) fid = countPosts s fid) := by
  constructor
  · intro fund po w hid
    exact notifyStep_skip_of_present s fund po w (by rw [hid]; exact hfid)
      (by rw [hid]; exact hpres)
  · intro items
    exact countPosts_loop_of_present items s fid hfid hpres

/-- Witness for C2: with a row for "F1" recorded, processing `fundA` changes
nothing and a re-run adds no post for "F1". -/
theorem claim_C2_witness :
    notifyStep (initState [{ fundID := "F1", deleted := false }]) (fundA, true, true) =
      initState [{ fundID := "F1", deleted := false }] ∧
    countPosts (notifyLoop (initState [{ fundID := "F1", deleted := false }])
      [(fundA, true, true)]) "F1" =
      countPosts (initState [{ fundID := "F1", deleted := false }]) "F1" := by
  obtain ⟨h1, h2⟩ := claim_C2 (initState [{ fundID := "F1", deleted := false }]) "F1"
    (by decide) ⟨{ fundID := "F1", deleted := false }, by simp [initState], rfl, rfl⟩
  exact ⟨h1 fundA true true rfl, h2 [(fundA, true, true)]⟩

/-- Counterexample to C2 as stated: a fund whose identifier ("") is present
in persistence is nevertheless posted for. -/
theorem claim_C2_cex :
    (∃ r ∈ (initState [{ fundID := "", deleted := false }]).db,
      r.fundID = fundEmpty.id) ∧
    (notifyStep (initState [{ fundID := "", deleted := false }])
      (fundEmpty, true, true)).posts.length = 1 ∧
    (initState [{ fundID := "", deleted := false }]).posts.length = 0 := by
  refine ⟨⟨{ fundID := "", deleted := false }, by simp [initState], rfl⟩, by decide, rfl⟩

/-- **C3** (confirmed).  The currency label is a pure function of the fund's
`currencyId` string: "1" maps to the domestic-currency label, "2" and "3" to
the two foreign-currency labels, and every other string to the unknown
label (src/main.go lines 81-92). -/
theorem claim_C3 (f : Fund) :
    f.Currency =
      if f.currencyID = "1" then "日本円"
      else if f.currencyID = "2" then "USドル"
      else if f.currencyID = "3" then "AUドル"
      else "不明" := by
  unfold Fund.Currency
  split <;> simp_all

/-- **C4** (confirmed).  When the webhook post for a fund fails, no
persistence record is inserted (rows and insert attempts are unchanged),
the error is logged when the fund was actually processed, and the loop
continues with the remaining funds (src/main.go lines 191-194). -/
theorem claim_C4 (s : LoopState) (f : Fund) (w : Bool) :
    (notifyStep s (f, false, w)).db = s.db ∧
    (notifyStep s (f, false, w)).inserts = s.inserts ∧
    ((firstFundID s.db f.id).fundID = "" →
      (notifyStep s (f, false, w)).logs = s.logs ++ ["Failed to post webhook"]) ∧
    (∀ rest, notifyLoop s ((f, false, w) :: rest) =
      notifyLoop (notifyStep s (f, false, w)) rest) := by
  refine ⟨?_, ?_, ?_, fun rest => rfl⟩ <;>
    by_cases hg : (firstFundID s.db f.id).fundID ≠ ""
  · rw [notifyStep_skip s f false w hg]
  · rw [notifyStep_postfail s f w hg]
  · rw [notifyStep_skip s f false w hg]
  · rw [notifyStep_postfail s f w hg]
  · intro h
    exact absurd h hg
  · intro _
    rw [notifyStep_postfail s f w hg]

/-- Witness for C4: a failed post for a new fund leaves the database
untouched, logs the failure, and the loop goes on to the next fund. -/
theorem claim_C4_witness :
    (notifyStep (initState []) (fundA, false, true)).db = [] ∧
    (notifyStep (initState []) (fundA, false, true)).inserts = [] ∧
    (notifyStep (initState []) (fundA, false, true)).logs =
      [] ++ ["Failed to post webhook"] ∧
    notifyLoop (initState []) [(fundA, false, true), (fundB, true, true)] =
      notifyLoop (notifyStep (initState []) (fundA, false, true)) [(fundB, true, true)] := by
  obtain ⟨h1, h2, h3, h4⟩ := claim_C4 (initState []) fundA true
  exact ⟨h1, h2, h3 (by decide), h4 [(fundB, true, true)]⟩

/-- `db.any` on the identifier column is existence of a row (soft-deleted or
not) with that identifier. -/
theorem anyFundID_iff (db : List SendList) (fid : String) :
    db.any (fun r => r.fundID == fid) = true ↔ ∃ r ∈ db, r.fundID = fid := by
  simp [List.any_eq_true]

/-- A fund that is not skipped always gets exactly one webhook post attempt
appended, with the outcome of its post. -/
theorem notifyStep_attempt (s : LoopState) (fund : Fund) (po w : Bool)
    (hg : ¬ (firstFundID s.db fund.id).fundID ≠ "") :
    (notifyStep s (fund, po, w)).posts =
      s.posts ++ [{ fund := fund, msg := buildMessage fund, ok := po }] := by
  cases po
  · rw [notifyStep_postfail s fund w hg]
  · by_cases hc : (w && s.db.all (fun r => r.fundID != fund.id)) = true
    · simp [notifyStep, hg, hc]
    · have hfail : (w && s.db.all (fun r => r.fundID != fund.id)) = false := by
        revert hc
        cases w && s.db.all (fun r => r.fundID != fund.id) <;> simp
      rw [notifyStep_insertfail s fund w hg hfail]

/-- Unfolding the new-fund count over the head of the batch. -/
theorem newCount_cons (db : List SendList) (i : Item) (t : List Item) :
    newCount db (i :: t) =
      (if db.any (fun r => r.fundID == i.1.id) = true then 0 else 1) + newCount db t := by
  by_cases h : db.any (fun r => r.fundID == i.1.id) = true
  · simp [newCount, List.filter_cons, h]
  · have h' : db.any (fun r => r.fundID == i.1.id) = false := by
      revert h
      cases db.any (fun r => r.fundID == i.1.id) <;> simp
    simp [newCount, List.filter_cons, h', Nat.add_comm]

/-- Appending a row whose identifier occurs in no item of the batch does not
change the batch's new-fund count. -/
theorem newCount_extend (db : List SendList) (row : SendList) (t : List Item)
    (h : ∀ j ∈ t, ¬ j.1.id = row.fundID) :
    newCount (db ++ [row]) t = newCount db t := by
  unfold newCount
  apply congrArg List.length
  apply List.filter_congr
  intro j hj
  have hrow : (row.fundID == j.1.id) = false := by
    rw [beq_eq_false_iff_ne]
    intro hcon
    exact h j hj hcon.symm
  simp [List.any_append, hrow]

/-- Attempt-count lemma for the loop: with pairwise-distinct, non-empty fund
identifiers and no soft-deleted rows, the loop attempts exactly one webhook
post per fund that has no row at the start, whatever the post and insert
outcomes are. -/
theorem c5_loop (items : List Item) : ∀ s : LoopState,
    (∀ r ∈ s.db, r.deleted = false) →
    (∀ i ∈ items, i.1.id ≠ "") →
    (items.map (fun i => i.1.id)).Nodup →
    (notifyLoop s items).posts.length = s.posts.length + newCount s.db items := by
  induction items with
  | nil =>
    intro s _ _ _
    simp [notifyLoop, newCount]
  | cons i t ih =>
    intro s hnd hne hnodup
    obtain ⟨fund, po, w⟩ := i
    have hne1 : fund.id ≠ "" := hne (fund, po, w) (List.mem_cons_self _ _)
    have hnet : ∀ j ∈ t, j.1.id ≠ "" := fun j hj => hne j (List.mem_cons_of_mem _ hj)
    have hcons : notifyLoop s ((fund, po, w) :: t) =
        notifyLoop (notifyStep s (fund, po, w)) t := rfl
    rw [List.map_cons, List.nodup_cons] at hnodup
    obtain ⟨hnotin, hnodupt⟩ := hnodup
    by_cases hpres : ∃ r ∈ s.db, r.fundID = fund.id
    · have hpres' : ∃ r ∈ s.db, r.fundID = fund.id ∧ r.deleted = false := by
        obtain ⟨r, hr, hrf⟩ := hpres
        exact ⟨r, hr, hrf, hnd r hr⟩
      rw [hcons, notifyStep_skip_of_present s fund po w hne1 hpres',
        ih s hnd hnet hnodupt, newCount_cons s.db (fund, po, w) t,
        if_pos ((anyFundID_iff s.db fund.id).mpr hpres)]
      omega
    · have hg : ¬ (firstFundID s.db fund.id).fundID ≠ "" := by
        rw [firstFundID_ne_iff]
        rintro ⟨-, r, hr, hrf, -⟩
        exact hpres ⟨r, hr, hrf⟩
      have hany : ¬ s.db.any (fun r => r.fundID == fund.id) = true := by
        intro hcon
        exact hpres ((anyFundID_iff s.db fund.id).mp hcon)
      have hposts := notifyStep_attempt s fund po w hg
      have hnd' := notifyStep_nondel s (fund, po, w) hnd
      have hlen := ih (notifyStep s (fund, po, w)) hnd' hnet hnodupt
      rw [hcons, hlen, hposts, List.length_append,
        newCount_cons s.db (fund, po, w) t, if_neg hany]
      have hext : newCount (notifyStep s (fund, po, w)).db t = newCount s.db t := by
        rcases notifyStep_db_sub s (fund, po, w) with hdb | hdb
        · rw [hdb]
        · rw [hdb, newCount_extend s.db { fundID := fund.id, deleted := false } t]
          intro j hj hcon
          apply hnotin
          rw [List.mem_map]
          exact ⟨j, hj, hcon⟩
      rw [hext]
      simp
      omega

/-- One step preserves the correspondence between successful posts and
insert attempts: an insert is attempted exactly for each successful post,
for that fund's identifier. -/
theorem okPostIDs_step (s : LoopState) (it : Item)
    (h : okPostIDs s = s.inserts.map Prod.fst) :
    okPostIDs (notifyStep s it) = (notifyStep s it).inserts.map Prod.fst := by
  obtain ⟨fund, po, w⟩ := it
  simp only [okPostIDs] at h
  by_cases hg : (firstFundID s.db fund.id).fundID ≠ ""
  · rw [notifyStep_skip s fund po w hg]
    exact h
  · cases po
    · rw [notifyStep_postfail s fund w hg]
      simp [okPostIDs, List.filter_append, h]
    · by_cases hc : (w && s.db.all (fun r => r.fundID != fund.id)) = true
      · simp [notifyStep, hg, hc, okPostIDs, List.filter_append, h]
      · have hfail : (w && s.db.all (fun r => r.fundID != fund.id)) = false := by
          revert hc
          cases w && s.db.all (fun r => r.fundID != fund.id) <;> simp
        rw [notifyStep_insertfail s fund w hg hfail]
        simp [okPostIDs, List.filter_append, h]

/-- Loop-level correspondence between successful posts and insert attempts. -/
theorem okPostIDs_loop (items : List Item) : ∀ s : LoopState,
    okPostIDs s = s.inserts.map Prod.fst →
    okPostIDs (notifyLoop s items) = (notifyLoop s items).inserts.map Prod.fst := by
  induction items with
  | nil =>
    intro s h
    exact h
  | cons i t ih =>
    intro s h
    exact ih (notifyStep s i) (okPostIDs_step s i h)

/-- **C5** (amended).  For a fetched list whose fund identifiers are
pairwise distinct and non-empty, run against rows none of which are
soft-deleted, the loop attempts exactly one webhook post per fund with no
row at the start (`newCount`), whatever the outcomes; an insert is
attempted exactly once per successful post, for that fund's identifier, in
order; and a failed insert after a successful post is logged while the loop
continues with the remaining funds.  As stated the claim is false when the
same identifier occurs twice in one fetched list: both occurrences are
"new", yet only the first is posted once its insert lands. -/
theorem claim_C5 (db : List SendList) (items : List Item)
    (hnd : ∀ r ∈ db, r.deleted = false)
    (hne : ∀ i ∈ items, i.1.id ≠ "")
    (hnodup : (items.map (fun i => i.1.id)).Nodup) :
    (notifyLoop (initState db) items).posts.length = newCount db items ∧
    okPostIDs (notifyLoop (initState db) items) =
      (notifyLoop (initState db) items).inserts.map Prod.fst ∧
    (∀ s2 : LoopState, ∀ fund : Fund, ∀ rest : List Item,
      (firstFundID s2.db fund.id).fundID = "" →
        (notifyStep s2 (fund, true, false)).logs =
          s2.logs ++ ["Failed to save to database"] ∧
        notifyLoop s2 ((fund, true, false) :: rest) =
          notifyLoop (notifyStep s2 (fund, true, false)) rest) := by
  refine ⟨?_, ?_, ?_⟩
  · have h := c5_loop items (initState db) hnd hne hnodup
    simpa [initState] using h
  · exact okPostIDs_loop items (initState db) (by simp [okPostIDs, initState])
  · intro s2 fund rest hg
    have hg' : ¬ (firstFundID s2.db fund.id).fundID ≠ "" := by
      rw [hg]
      exact fun hcon => hcon rfl
    refine ⟨?_, rfl⟩
    rw [notifyStep_insertfail s2 fund false hg' (by simp)]

/-- Witness for C5: one recorded fund and one new fund give exactly one
attempt, the successful post has exactly its insert attempt, and a failed
insert for a fresh fund is logged while the loop continues. -/
theorem claim_C5_witness :
    (notifyLoop (initState [{ fundID := "F2", deleted := false }])
      [(fundA, true, true), (fundB, false, true)]).posts.length =
      newCount [{ fundID := "F2", deleted := false }]
        [(fundA, true, true), (fundB, false, true)] ∧
    okPostIDs (notifyLoop (initState [{ fundID := "F2", deleted := false }])
      [(fundA, true, true), (fundB, false, true)]) =
      (notifyLoop (initState [{ fundID := "F2", deleted := false }])
        [(fundA, true, true), (fundB, false, true)]).inserts.map Prod.fst ∧
    (notifyStep (initState []) (fundA, true, false)).logs =
      [] ++ ["Failed to save to database"] ∧
    notifyLoop (initState []) [(fundA, true, false)] =
      notifyLoop (notifyStep (initState []) (fundA, true, false)) [] := by
  obtain ⟨h1, h2, h3⟩ := claim_C5 [{ fundID := "F2", deleted := false }]
    [(fundA, true, true), (fundB, false, true)] (by decide) (by decide) (by decide)
  obtain ⟨h4, h5⟩ := h3 (initState []) fundA [] (by decide)
  exact ⟨h1, h2, h4, h5⟩

/-- Counterexample to C5 as stated: a fetched list repeating one new fund
has two "new" entries but only one post is attempted. -/
theorem claim_C5_cex :
    (notifyLoop (initState []) [(fundA, true, true), (fundA, true, true)]).posts.length = 1 ∧
    newCount [] [(fundA, true, true), (fundA, true, true)] = 2 := by
  decide

/-- **C6** (amended).  A failure to open the persistence file at startup is
fatal, before any fetch or webhook activity (src/main.go lines 105-108).
As stated the claim is false for the migrate step: `db.AutoMigrate`'s error
is discarded (line 111), so a migration failure does not abort the
process. -/
theorem claim_C6 (env : MainEnv) (h1 : env.loadOk = true) (h2 : env.openOk = false) :
    mainRun env = MainResult.fatal "Failed to open database" ∧
    (mainRun env).postEvents = [] := by
  have h : mainRun env = MainResult.fatal "Failed to open database" := by
    simp [mainRun, h1, h2]
  exact ⟨h, by rw [h]; rfl⟩

/-- Witness for C6: a concrete environment whose open step fails aborts with
the open-failure message and no webhook activity. -/
theorem claim_C6_witness :
    envOpenFail.loadOk = true ∧ envOpenFail.openOk = false ∧
    mainRun envOpenFail = MainResult.fatal "Failed to open database" ∧
    (mainRun envOpenFail).postEvents = [] := by
  obtain ⟨h1, h2⟩ := claim_C6 envOpenFail rfl rfl
  exact ⟨rfl, rfl, h1, h2⟩

/-- Counterexample to C6 as stated: a failing auto-migrate does not abort —
the run completes normally because line 111 ignores the error. -/
theorem claim_C6_cex :
    envMigrateFail.migrateOk = false ∧
    mainRun envMigrateFail = MainResult.done (initState []) :=
  ⟨rfl, rfl⟩

/-- **C7** (amended).  A network failure of the fetch, and a JSON decode
failure, each abort the process with a logged fatal error before any webhook
post or insert (src/main.go lines 122-132).  As stated the claim is false
for non-2xx responses: `resp.StatusCode` is never examined, so a non-2xx
response whose body decodes is processed like any other. -/
theorem claim_C7 (env : MainEnv) (h1 : env.loadOk = true) (h2 : env.openOk = true)
    (h3 : env.newRequestOk = true) :
    (env.doOk = false →
      mainRun env = MainResult.fatal "Failed to request" ∧
      (mainRun env).postEvents = []) ∧
    (env.doOk = true → env.decoded = none →
      mainRun env = MainResult.fatal "Failed to decode json" ∧
      (mainRun env).postEvents = []) := by
  constructor
  · intro h4
    have h : mainRun env = MainResult.fatal "Failed to request" := by
      simp [mainRun, h1, h2, h3, h4]
    exact ⟨h, by rw [h]; rfl⟩
  · intro h4 h5
    have h : mainRun env = MainResult.fatal "Failed to decode json" := by
      simp [mainRun, h1, h2, h3, h4, h5]
    exact ⟨h, by rw [h]; rfl⟩

/-- Witness for C7: a concrete environment whose fetch body fails to decode
aborts with the decode-failure message and no webhook activity. -/
theorem claim_C7_witness :
    envDecodeFail.doOk = true ∧ envDecodeFail.decoded = none ∧
    mainRun envDecodeFail = MainResult.fatal "Failed to decode json" ∧
    (mainRun envDecodeFail).postEvents = [] := by
  obtain ⟨-, h⟩ := claim_C7 envDecodeFail rfl rfl rfl
  obtain ⟨ha, hb⟩ := h rfl rfl
  exact ⟨rfl, rfl, ha, hb⟩

/-- Counterexample to C7 as stated: a non-2xx (500) response whose body
decodes is processed to completion, not aborted. -/
theorem claim_C7_cex :
    envStatus500.status = 500 ∧
    mainRun envStatus500 = MainResult.done (initState []) :=
  ⟨rfl, rfl⟩

/-- **C8** (confirmed).  The webhook message built for a fund has top-level
text equal to the fund name and exactly one attachment: title the subtitle,
title-link the fixed base URL concatenated with the fund's relative URL,
body text the description, markdown enabled for the text field, and exactly
seven fields in the fixed order region, project, open date, close date,
rate suffixed with "%", raise method, currency label
(src/main.go lines 143-190). -/
theorem claim_C8 (f : Fund) :
    (buildMessage f).text = f.name ∧
    (buildMessage f).attachments =
      [{ title := f.subTitle
         titleLink := CrowdBankURL ++ f.url
         text := f.description
         fields :=
           [{ title := "地域", value := f.regionName, short := true },
            { title := "プロジェクト", value := f.projectName, short := true },
            { title := "募集開始日", value := f.openTime, short := true },
            { title := "募集終了日", value := f.closeTime, short := true },
            { title := "利率", value := f.rate ++ "%", short := true },
            { title := "募集方法", value := f.raiseMethod, short := true },
            { title := "通貨", value := f.Currency, short := true }]
         markdownIn := ["text"] }] :=
  ⟨rfl, rfl⟩

/-- **C9** (amended).  For a *non-empty* identifier, the loop's existence
check succeeds exactly when a row with that identifier *not marked
soft-deleted* exists.  As stated the claim is false: GORM's default scope
excludes soft-deleted rows from `First`, and for the empty identifier the
`FundID != ""` comparison never succeeds. -/
theorem claim_C9 (db : List SendList) (fid : String) (hfid : fid ≠ "") :
    (firstFundID db fid).fundID ≠ "" ↔
      ∃ r ∈ db, r.fundID = fid ∧ r.deleted = false := by
  rw [firstFundID_ne_iff]
  exact ⟨fun h => h.2, fun h => ⟨hfid, h⟩⟩

/-- Witness for C9: with one live row for "F1" the check succeeds exactly as
the amended claim states. -/
theorem claim_C9_witness :
    ("F1" : String) ≠ "" ∧
    ((firstFundID [{ fundID := "F1", deleted := false }] "F1").fundID ≠ "" ↔
      ∃ r ∈ ([{ fundID := "F1", deleted := false }] : List SendList),
        r.fundID = "F1" ∧ r.deleted = false) :=
  ⟨by decide, claim_C9 [{ fundID := "F1", deleted := false }] "F1" (by decide)⟩

/-- Counterexample to C9 as stated: a soft-deleted row with the identifier
exists in the table, yet the check fails. -/
theorem claim_C9_cex :
    (∃ r ∈ ([{ fundID := "F1", deleted := true }] : List SendList), r.fundID = "F1") ∧
    (firstFundID [{ fundID := "F1", deleted := true }] "F1").fundID = "" := by
  decide

/-- **C10** (confirmed).  The message built for a fund and the loop's whole
observable behaviour for it — rows, insert attempts, log lines, and the
messages posted — are independent of the fund's funding cap (`limitAmount`)
and limit timestamp (`limitTime`): neither field is read anywhere in
src/main.go lines 134-201. -/
theorem claim_C10 (f : Fund) (a : Int) (t : String) (s : LoopState) (po w : Bool) :
    buildMessage { f with limitAmount := a, limitTime := t } = buildMessage f ∧
    (notifyStep s ({ f with limitAmount := a, limitTime := t }, po, w)).db =
      (notifyStep s (f, po, w)).db ∧
    (notifyStep s ({ f with limitAmount := a, limitTime := t }, po, w)).inserts =
      (notifyStep s (f, po, w)).inserts ∧
    (notifyStep s ({ f with limitAmount := a, limitTime := t }, po, w)).logs =
      (notifyStep s (f, po, w)).logs ∧
    (notifyStep s ({ f with limitAmount := a, limitTime := t }, po, w)).posts.map
        PostEvent.msg =
      (notifyStep s (f, po, w)).posts.map PostEvent.msg := by
  have hmsg : buildMessage { f with limitAmount := a, limitTime := t } =
      buildMessage f := rfl
  refine ⟨hmsg, ?_, ?_, ?_, ?_⟩ <;>
  · simp only [notifyStep]
    split_ifs <;> simp [hmsg]
